import Mathlib

/-
Verification of the canonicalization and key-discovery engine of
edx/analytics/tasks/event_analysis.py.

The Python functions are shallowly embedded as executable Lean functions.
Python strings are Lean `String`s; `str.split(c)`, `str.replace`, `str.strip`
and friends are re-implemented on `List Char` so that they are structurally
recursive (hence kernel-reducible) and amenable to proof.
-/

/-! ### Python string primitives -/

/-- Python `str.lower` (ASCII, which is all the source ever feeds it). -/
def pyLower (s : String) : String := ⟨s.data.map Char.toLower⟩

/-- Python whitespace characters stripped by `str.strip()`. -/
def isPySpace (c : Char) : Bool :=
  c == ' ' || c == '\t' || c == '\n' || c == '\r' || c == '\x0b' || c == '\x0c'

/-- Python `str.strip()` with no arguments. -/
def pyStrip (s : String) : String :=
  ⟨((s.data.dropWhile isPySpace).reverse.dropWhile isPySpace).reverse⟩

/-- Python `str.isdigit()`: true iff the string is nonempty and all characters
are decimal digits. -/
def pyIsDigitStr (s : String) : Bool :=
  !s.data.isEmpty && s.data.all Char.isDigit

/-- Python `s.split(c)` for a single-character separator, on char lists.
`split c [] = [[]]`, and every occurrence of `c` starts a new piece. -/
def splitChar (c : Char) : List Char → List (List Char)
  | [] => [[]]
  | a :: rest =>
    match splitChar c rest with
    | [] => [[]]
    | h :: t => if a == c then [] :: h :: t else (a :: h) :: t

/-- Python `c.join(pieces)` for a single-character separator, on char lists. -/
def joinChar (c : Char) : List (List Char) → List Char
  | [] => []
  | [x] => x
  | x :: y :: t => x ++ c :: joinChar c (y :: t)

/-- Python `s.split(c)` on `String`. -/
def pySplitChar (c : Char) (s : String) : List String :=
  (splitChar c s.data).map (fun l => ⟨l⟩)

/-- Python `c.join(l)` on `String`. -/
def pyJoinChar (c : Char) (l : List String) : String :=
  ⟨joinChar c (l.map String.data)⟩

/-- One step of Python `str.replace`: leftmost-first, non-overlapping.
The `Nat` argument is fuel (instantiated with the length of the subject),
keeping the definition structurally recursive. -/
def pyReplaceAux (old new : List Char) : Nat → List Char → List Char
  | 0, s => s
  | _ + 1, [] => []
  | fuel + 1, a :: rest =>
    if old.isPrefixOf (a :: rest) then
      new ++ pyReplaceAux old new fuel (rest.drop (old.length - 1))
    else
      a :: pyReplaceAux old new fuel rest

/-- Python `s.replace(old, new)` (for nonempty `old`, the only use here). -/
def pyReplace (s old new : String) : String :=
  ⟨pyReplaceAux old.data new.data s.data.length s.data⟩

/-! ### get_numeric_slug (segment classifier) -/

/-- The hex-digit set used by `get_numeric_slug`. -/
def hexDigits : List Char := "0123456789abcdefABCDEF".data

/-- An identity-hint map: hint name paired with the observed string value.
Models the Python `user_info` dict (keys unique). -/
abbrev UserInfo := List (String × String)

/-- Insert a hint into a key-sorted list (models Python `sorted` over the
dict's keys; keys are unique so stability is irrelevant). -/
def insertHint (p : String × String) : UserInfo → UserInfo
  | [] => [p]
  | q :: rest => if p.1 ≤ q.1 then p :: q :: rest else q :: insertHint p rest

/-- `sorted(user_info.iterkeys())` iteration order: hints sorted by name. -/
def sortHints (ui : UserInfo) : UserInfo :=
  ui.foldr insertHint []

/-- Classification of a string once identity hints have been ruled out:
the int/hex/alnum/literal cascade at the end of `get_numeric_slug`. -/
def numericSlugCore (value_string : String) : String :=
  if pyIsDigitStr value_string then
    "(int" ++ toString value_string.length ++ ")"
  else if value_string.data.all (fun c => hexDigits.contains c) then
    "(hex" ++ toString value_string.length ++ ")"
  else if value_string.data.any Char.isDigit then
    "(alnum" ++ toString value_string.length ++ ")"
  else
    value_string

/-- `get_numeric_slug(value_string, user_info=None)` from the source:
empty strings are returned unchanged; an exact match against a hint value
(hints visited in sorted-name order) yields `(hint-name)`; otherwise the
int/hex/alnum/literal cascade applies. -/
def get_numeric_slug (value_string : String) (user_info : Option UserInfo) : String :=
  if value_string.length = 0 then ""
  else
    match user_info with
    | some ui =>
      match (sortHints ui).find? (fun p => p.2 == value_string) with
      | some p => "(" ++ p.1 ++ ")"
      | none => numericSlugCore value_string
    | none => numericSlugCore value_string

/-! ### INPUT_ID_REGEX and canonicalize_key -/

/-- Does `c` belong to `[1234]`? -/
def isOneToFour (c : Char) : Bool :=
  c == '1' || c == '2' || c == '3' || c == '4'

/-- The optional suffix `(_dynamath|_comment|_choiceinput_.*)?$` of
INPUT_ID_REGEX: accepts exactly the strings that may follow the captured
`input_id` group. -/
def suffixOk (r : List Char) : Bool :=
  r.isEmpty || r == "_dynamath".data || r == "_comment".data ||
    "_choiceinput_".data.isPrefixOf r

/-- Candidate parses of `[1234]?\d` at the front of a char list, in the
order a backtracking regex engine tries them (two digits first): each
candidate is (number of chars consumed, remaining input). -/
def numCandidates : List Char → List (Nat × List Char)
  | [] => []
  | [a] => if a.isDigit then [(1, [])] else []
  | a :: b :: r =>
    (if isOneToFour a && b.isDigit then [(2, r)] else []) ++
      (if a.isDigit then [(1, b :: r)] else [])

/-- Try to match `_[1234]?\d_[1234]?\d(_dynamath|_comment|_choiceinput_.*)?$`
against `rest`, returning the number of characters of the leading
`_[1234]?\d_[1234]?\d` part (the tail of the `input_id` group) on success.
Candidates are tried in backtracking order, so the result is the one
Python's `re` produces. -/
def matchTail (rest : List Char) : Option Nat :=
  match rest with
  | '_' :: r1 =>
    (numCandidates r1).findSome? fun (n1, r2) =>
      match r2 with
      | '_' :: r3 =>
        (numCandidates r3).findSome? fun (n2, r4) =>
          if suffixOk r4 then some (1 + n1 + 1 + n2) else none
      | _ => none
  | _ => none

/-- `INPUT_ID_REGEX.match(s)`: the `input_id` group captured by
`^(?P<input_id>.+_[1234]?\d_[1234]?\d)(_dynamath|_comment|_choiceinput_.*)?$`,
or `none` when the regex does not match.  The greedy `.+` is modelled by
trying the longest prefix first. -/
def inputIdMatch (s : List Char) : Option (List Char) :=
  (List.range s.length).reverse.findSome? fun i =>
    if 1 ≤ i then
      match matchTail (s.drop i) with
      | some consumed => some (s.take (i + consumed))
      | none => none
    else none

/-- `canonicalize_key(value_string)` from the source: replace a matched
`input_id` substring with `(input-id)`, then split on the first delimiter
found among `_` then `.` and classify each part with `get_numeric_slug`. -/
def canonicalize_key (value_string : String) : String :=
  let value_string :=
    match inputIdMatch value_string.data with
    | some input_id => pyReplace value_string ⟨input_id⟩ "(input-id)"
    | none => value_string
  if value_string.data.contains '_' then
    pyJoinChar '_' ((pySplitChar '_' value_string).map (fun v => get_numeric_slug v none))
  else if value_string.data.contains '.' then
    pyJoinChar '.' ((pySplitChar '.' value_string).map (fun v => get_numeric_slug v none))
  else
    get_numeric_slug value_string none

/-! ### The event payload data model and get_key_names (structural walker) -/

mutual
/-- A Python value as seen by `get_key_names`: nested dicts and lists over
scalar leaves (strings, ints, bools) and `None`.  Dict entries and list
items are separate inductives so that all recursion below is structural. -/
inductive PyValue : Type where
  | pstr (s : String)
  | pint (n : Int)
  | pbool (b : Bool)
  | pnone
  | pdict (entries : PyFields)
  | plist (items : PyList)
  deriving DecidableEq
inductive PyFields : Type where
  | fnil
  | fcons (key : String) (value : PyValue) (rest : PyFields)
  deriving DecidableEq
inductive PyList : Type where
  | lnil
  | lcons (head : PyValue) (rest : PyList)
  deriving DecidableEq
end

/-- Python `unicode(obj)` for the scalar leaves. -/
def pyUnicode : PyValue → String
  | .pstr s => s
  | .pint n => toString n
  | .pbool b => if b then "True" else "False"
  | .pnone => "None"
  | .pdict _ => "<dict>"
  | .plist _ => "<list>"

/-- Python `type(obj).__name__` for the scalar leaves (Python 2: decoded
JSON strings are `unicode`). -/
def pyTypeName : PyValue → String
  | .pstr _ => "unicode"
  | .pint _ => "int"
  | .pbool _ => "bool"
  | .pnone => "NoneType"
  | .pdict _ => "dict"
  | .plist _ => "list"

/-- Python `needle in haystack` for strings: substring containment
(the empty needle is contained in everything). -/
def containsSub (needle : List Char) : List Char → Bool
  | [] => needle.isEmpty
  | a :: rest => needle.isPrefixOf (a :: rest) || containsSub needle rest

/-- The fixed allow-list of prefixes whose keys collapse to `(url)`. -/
def urlOverridePrefixes : List String :=
  ["event.export.recommendations",
   "event.information.export.recommendations",
   "event.export.removed_recommendations",
   "event.information.export.removed_recommendations"]

/-- The leaf branch of `get_key_names`: classify a leaf with string form
`obj_str` and type name `type_name` against the identity hints (visited in
map order), testing exact, quoted and containment matches with an
`elif` chain (so at most one classification per hint), and fall back to
the type name when nothing matches. -/
def leafKeyNames (obj_str type_name pfx : String) (user_info : Option UserInfo) :
    List String :=
  let entry_types :=
    match user_info with
    | none => []
    | some ui =>
      ui.filterMap fun p =>
        if p.2 == obj_str then some p.1
        else if p.2 == "\"" ++ obj_str ++ "\"" then some (p.1 ++ "-quoted")
        else if containsSub p.2.data obj_str.data then some ("contains-" ++ p.1)
        else none
  let entry_types := if entry_types.isEmpty then [type_name] else entry_types
  entry_types.map fun t => pfx ++ "(" ++ t ++ ")"

mutual
/-- `get_key_names(obj, prefix, stopwords, user_info)` from the source,
mutually with the loop over dict entries.  Stopwords are lower-cased on
entry exactly as in the source (the recursive calls re-lower the already
lowered list, a no-op). -/
def get_key_names (obj : PyValue) (pfx : String) (stopwords : List String)
    (user_info : Option UserInfo) : List String :=
  match obj with
  | .pnone => []
  | .pdict entries =>
    let stop := stopwords.map pyLower
    (match entries with
     | .fnil => [pfx ++ "(emptydict)"]
     | _ => []) ++
      walkFields entries pfx stop user_info
  | .plist .lnil => [pfx ++ "[]"]
  | .plist (.lcons entry _) => get_key_names entry (pfx ++ "[]") stopwords user_info
  | .pstr s => leafKeyNames s "unicode" pfx user_info
  | .pint n => leafKeyNames (toString n) "int" pfx user_info
  | .pbool b => leafKeyNames (if b then "True" else "False") "bool" pfx user_info

def walkFields (entries : PyFields) (pfx : String) (stop : List String)
    (user_info : Option UserInfo) : List String :=
  match entries with
  | .fnil => []
  | .fcons key value rest =>
    let canonical_key :=
      if pfx ∈ urlOverridePrefixes then "(url)" else canonicalize_key key
    let new_pfx := pfx ++ "." ++ canonical_key
    (if (pyLower key) ∈ stop then [new_pfx ++ "(TRIMMED)"]
     else get_key_names value new_pfx stop user_info) ++
      walkFields rest pfx stop user_info
end

/-! ### Event-type canonicalizer

`canonicalize_event_type` first stubs a course-id substring using
`opaque_key_util.COURSE_REGEX`.  That module is not part of this source
tree, so the stubbing step is modelled from the spec (section 4.4) and the
rest of the function is parameterized over it; every theorem that can be
proved for an arbitrary stubbing function is stated that way. -/

/-- Characters allowed inside the first two parts of a course id. -/
def notSlashPlus (c : Char) : Bool := !(c == '/' || c == '+')

/-- Modelled from the spec: the spec says the canonicalizer must "detect and
stub a course-identifier substring (matched by a fixed course-id pattern)";
the pattern itself lives in `opaque_key_util.COURSE_REGEX`, which is not in
this source tree.  A course identifier is modelled as the standard edX
org/course/run triple following `/courses/`: `[^/+]+(/|+)[^/+]+(/|+)[^/]+`,
each part taken greedily. -/
def parseCourseId (cs : List Char) : Option (List Char) :=
  let p1 := cs.takeWhile notSlashPlus
  if p1.isEmpty then none
  else
    match cs.drop p1.length with
    | s1 :: rest1 =>
      let p2 := rest1.takeWhile notSlashPlus
      if p2.isEmpty then none
      else
        match rest1.drop p2.length with
        | s2 :: rest2 =>
          let p3 := rest2.takeWhile (fun c => !(c == '/'))
          if p3.isEmpty then none
          else some (p1 ++ s1 :: p2 ++ s2 :: p3)
        | [] => none
    | [] => none

/-- Modelled from the spec: scan for the leftmost `/courses/` whose tail
parses as a course id (the lazy `^(?:.*?)` prefix of the regex tries match
positions left to right). -/
def findCourseId : List Char → Option (List Char)
  | [] => none
  | c :: rest =>
    if "/courses/".data.isPrefixOf (c :: rest) then
      match parseCourseId ((c :: rest).drop "/courses/".length) with
      | some course_id => some course_id
      | none => findCourseId rest
    else findCourseId rest

/-- Modelled from the spec: "detect and stub a course-identifier substring
(matched by a fixed course-id pattern) to the literal `(course_id)`".
Replacement follows Python `str.replace`: every occurrence of the matched
course-id string is replaced. -/
def stubCourseId (event_type : String) : String :=
  match findCourseId event_type.data with
  | some course_id => pyReplace event_type ⟨course_id⟩ "(course_id)"
  | none => event_type

/-- The noise allow-list of lines 496: routes excluded only when they carry
extra trailing segments. -/
def noiseRoutes : List String := ["info", "progress", "course_wiki", "about", "teams"]

/-- The pdfbook validation of lines 481-492: when `exclude_excluded` is set,
keep only paths matching `/courses/(course_id)/pdfbook/(intX)[/chapter/(intX)[/intX]]`. -/
def pdfbookCheck (values : List String) : Option (List String) :=
  if 4 < values.length ∧ 0 < (values.getD 4 "").length ∧ ¬ pyIsDigitStr (values.getD 4 "") then
    none
  else if 5 < values.length ∧ 0 < (values.getD 5 "").length ∧ values.getD 5 "" ≠ "chapter" then
    none
  else if 6 < values.length ∧ 0 < (values.getD 6 "").length ∧ ¬ pyIsDigitStr (values.getD 6 "") then
    none
  else if 7 < values.length ∧ 0 < (values.getD 7 "").length ∧ ¬ pyIsDigitStr (values.getD 7 "") then
    none
  else if 8 < values.length then none
  else some values

/-- The scan of lines 459-465: the first index in `[start, start+count)`
whose segment begins with `_` (a wiki command suffix). -/
def findCommandIndex (values : List String) (start count : Nat) : Option Nat :=
  match count with
  | 0 => none
  | n + 1 =>
    if "_".data.isPrefixOf (values.getD start "").data then some start
    else findCommandIndex values (start + 1) n

/-- Replace segments `4..last` (inclusive) by `(wikislug)`, the loop of
lines 467-469; positions are counted from `i`. -/
def wikiStubFrom (values : List String) (i last : Nat) : List String :=
  match values with
  | [] => []
  | v :: rest =>
    (if 4 ≤ i ∧ i ≤ last then "(wikislug)" else v) :: wikiStubFrom rest (i + 1) last

/-- The adjusted last index of the `wiki` handler (lines 450-455): skip a
trailing empty segment, then a trailing `moment.js`. -/
def wikiLast (values : List String) : Nat :=
  let last0 := values.length - 1
  let last1 := if (values.getD last0 "").length = 0 then last0 - 1 else last0
  if values.getD last1 "" = "moment.js" then last1 - 1 else last1

/-- The `wiki` route handler of lines 447-469: a command segment (leading
`_`) excludes the event under `exclude_excluded` and otherwise truncates
the slugged range. -/
def wikiRoute (values : List String) (exclude_excluded disable_slugging : Bool) :
    Option (List String) :=
  match findCommandIndex values 4 (wikiLast values + 1 - 4) with
  | some idx =>
    if exclude_excluded then none
    else some (if disable_slugging then values else wikiStubFrom values 0 (idx - 1))
  | none => some (if disable_slugging then values else wikiStubFrom values 0 (wikiLast values))

/-- The `xblock` rewrite of lines 411-415. -/
def xblockRewrite (values : List String) (disable_slugging : Bool) : List String :=
  if 6 ≤ values.length ∧
      (values.getD 5 "" = "handler" ∨ values.getD 5 "" = "handler_noauth") ∧
      ¬ disable_slugging then
    values.set 4 "(xblock-loc)"
  else values

/-- The `submission_history` rewrite of lines 417-420. -/
def submissionHistoryRewrite (values : List String) (disable_slugging : Bool) : List String :=
  if 5 ≤ values.length ∧ ¬ disable_slugging then
    values.take 3 ++ ["(maybe_username)", "(block-loc)"]
  else values

/-- The `jump_to_id` rewrite of lines 422-425. -/
def jumpToIdRewrite (values : List String) (disable_slugging : Bool) : List String :=
  if values.length = 5 ∧ ¬ disable_slugging then values.set 4 "(block-id)" else values

/-- The `jump_to` rewrite of lines 427-431. -/
def jumpToRewrite (values : List String) (disable_slugging : Bool) : List String :=
  if ¬ disable_slugging then values.take 3 ++ ["(block-loc)"] else values

/-- The `courseware` rewrite of lines 433-436. -/
def coursewareRewrite (values : List String) (disable_slugging : Bool) : List String :=
  if ¬ disable_slugging then values.take 4 ++ ["(courseware-loc)"] else values

/-- The `xqueue` rewrite of lines 438-445. -/
def xqueueRewrite (values : List String) (disable_slugging : Bool) : List String :=
  let last := values.length - 1
  if 6 ≤ last ∧
      (values.getD last "" = "score_update" ∨ values.getD last "" = "ungraded_response") ∧
      ¬ disable_slugging then
    values.take 5 ++ ["(block-loc)"] ++ values.drop last
  else values

/-- The `discussion` rewrite of lines 471-477.  Note: the source never
consults `disable_slugging` here, so this rewrite takes no such flag.  The
second condition reads segment 4 after the first possible assignment, as
the source does. -/
def discussionRewrite (values : List String) : List String :=
  let v1 := if 6 ≤ values.length ∧ values.getD 5 "" = "threads" then
    values.set 4 "(discussion-id)" else values
  let v2 := if 7 ≤ v1.length ∧ v1.getD 4 "" = "forum" ∧
      (v1.getD 6 "" = "threads" ∨ v1.getD 6 "" = "inline") then
    v1.set 5 "(forum-id)" else v1
  v2

/-- The route dispatch of lines 406-509, operating on the already stubbed,
slash-split segment list: returns `none` when the event is excluded, and
otherwise the (possibly rewritten) segment list handed to the final
slugging step. -/
def dispatchRoute (values : List String) (exclude_excluded disable_slugging : Bool) :
    Option (List String) :=
  if values.getD 1 "" = "courses" then
    if 3 < values.length ∧ values.getD 2 "" = "(course_id)" then
      match values.getD 3 "" with
      | "xblock" =>
        if exclude_excluded then none else some (xblockRewrite values disable_slugging)
      | "submission_history" => some (submissionHistoryRewrite values disable_slugging)
      | "jump_to_id" => some (jumpToIdRewrite values disable_slugging)
      | "jump_to" =>
        if exclude_excluded then none else some (jumpToRewrite values disable_slugging)
      | "courseware" => some (coursewareRewrite values disable_slugging)
      | "xqueue" =>
        if exclude_excluded then none else some (xqueueRewrite values disable_slugging)
      | "wiki" => wikiRoute values exclude_excluded disable_slugging
      | "discussion" => some (discussionRewrite values)
      | "pdfbook" => if exclude_excluded then pdfbookCheck values else some values
      | tag =>
        if exclude_excluded then
          if tag ∈ noiseRoutes then
            if 4 < values.length then none else some values
          else none
        else some values
    else if exclude_excluded then none
    else some values
  else if exclude_excluded then none
  else some values

/-- `canonicalize_event_type`, parameterized over the course-id stubbing
function (the one piece of the source that lives outside this tree).
Implicit (non-`/`) event types are returned unchanged or excluded; explicit
ones are stubbed, split on `/`, dispatched per route, and finally every
segment is classified by `get_numeric_slug`. -/
def canonicalizeEventTypeWith (stub : String → String) (event_type : String)
    (exclude_implicit exclude_explicit exclude_excluded disable_slugging : Bool)
    (user_info : Option UserInfo) : Option String :=
  if ¬ ("/".data.isPrefixOf event_type.data) then
    if exclude_implicit then none else some event_type
  else if exclude_explicit then none
  else
    let event_type := stub event_type
    let values := pySplitChar '/' event_type
    match dispatchRoute values exclude_excluded disable_slugging with
    | none => none
    | some vs => some (pyJoinChar '/' (vs.map (fun v => get_numeric_slug v user_info)))

/-- `canonicalize_event_type` with the spec-modelled course-id stub. -/
def canonicalize_event_type (event_type : String)
    (exclude_implicit exclude_explicit exclude_excluded disable_slugging : Bool)
    (user_info : Option UserInfo := none) : Option String :=
  canonicalizeEventTypeWith stubCourseId event_type
    exclude_implicit exclude_explicit exclude_excluded disable_slugging user_info

/-! ### get_user_info_from_event (lines 191-234)

The mapper calls this helper with no surrounding `try`, so any exception it
raises aborts the whole run.  The embedding returns `Except String` where
the `error` constructor carries the Python exception that line would raise:
`event.get('username')` is `None` when the field is absent, and
`None.strip()` raises `AttributeError`; for a digit-only username the
source evaluates `len(username <= 5)`, and in Python 2 `unicode <= int` is
`False`, so `len(False)` raises `TypeError`. -/

/-- Number of entries of a dict (for `len`). -/
def countFields : PyFields → Nat
  | .fnil => 0
  | .fcons _ _ rest => countFields rest + 1

/-- Number of items of a list (for `len`). -/
def countItems : PyList → Nat
  | .lnil => 0
  | .lcons _ rest => countItems rest + 1

/-- Python `len(obj)` on a scalar or container, raising `TypeError` for
objects with no length. -/
def pyLenOfValue : PyValue → Except String Nat
  | .pstr s => .ok s.length
  | .pint _ => .error "TypeError: object of type 'int' has no len()"
  | .pbool _ => .error "TypeError: object of type 'bool' has no len()"
  | .pnone => .error "TypeError: object of type 'NoneType' has no len()"
  | .pdict f => .ok (countFields f)
  | .plist l => .ok (countItems l)

/-- `get_user_info_from_event(self, event)`.  The event is passed as its
relevant projections: `event.get('username')`, `event.get('context',
{}).get('user_id')`, `event.get('event', {}).get('user_id')`, plus the
`auth_user_data` (user-id to username) and `username_map` (username to
user-id) tables loaded by `init_mapper` (`none` models the unset `None`). -/
def get_user_info_from_event (check_user : Bool) (username : Option String)
    (context_user_id : Option PyValue) (event_user_id : Option PyValue)
    (auth_user_data : Option (List (String × String)))
    (username_map : Option (List (String × String))) :
    Except String UserInfo := do
  if ¬ check_user then
    return []
  let username ←
    match username with
    | none => Except.error "AttributeError: 'NoneType' object has no attribute 'strip'"
    | some u => pure (pyStrip u)
  -- `if username is not None:` always holds after `.strip()`.
  let key1 ←
    if pyIsDigitStr username then
      -- `len(username <= 5)` with a unicode/int comparison: TypeError.
      Except.error "TypeError: object of type 'bool' has no len()"
    else if username.length ≤ 5 then
      pure ("username-" ++ toString username.length)
    else
      pure "username"
  let info1 : UserInfo := [(key1, username)]
  let info2 :=
    match context_user_id with
    | none => info1
    | some uid =>
      let uid_str := pyUnicode uid
      let key := if uid_str.length ≤ 4 then "user-id-" ++ toString uid_str.length
        else "user-id"
      info1 ++ [(key, uid_str)]
  let info3 ←
    match event_user_id with
    | none => pure info2
    | some ev =>
      match pyLenOfValue ev with
      | .error e => Except.error e
      | .ok n =>
        let key := if n ≤ 4 then "user-id-event-" ++ toString n else "user-id-event"
        pure (info2 ++ [(key, pyUnicode ev)])
  let info4 :=
    match auth_user_data, context_user_id with
    | some data, some uid =>
      if data ≠ [] then
        -- Python dict lookup: an int user_id never equals a string key.
        match uid with
        | .pstr s =>
          match data.find? (fun p => p.1 == s) with
          | some p => info3 ++ [("username_from_user_id", p.2)]
          | none => info3
        | _ => info3
      else info3
    | _, _ => info3
  let info5 :=
    match username_map with
    | some m =>
      if m ≠ [] then
        match m.find? (fun p => p.1 == username) with
        | some p => info4 ++ [("user_id_from_username", p.2)]
        | none => info4
      else info4
    | none => info4
  return info5

/-- A hexadecimal letter a-f or A-F. -/
def isHexLetter (c : Char) : Bool :=
  c == 'a' || c == 'b' || c == 'c' || c == 'd' || c == 'e' || c == 'f' ||
  c == 'A' || c == 'B' || c == 'C' || c == 'D' || c == 'E' || c == 'F'

/-- The delimiter decomposition `canonicalize_key` applies after input-id
replacement: split on `_` if present, else on `.` if present, else the
whole string. -/
def keyDelimParts (y : String) : List String :=
  if y.data.contains '_' then pySplitChar '_' y
  else if y.data.contains '.' then pySplitChar '.' y
  else [y]

/-! ### Supporting lemmas -/

theorem strData_append (a b : String) : (a ++ b).data = a.data ++ b.data := by
  cases a
  cases b
  rfl

theorem strNeEmpty_of_data_ne (a : String) (h : a.data ≠ []) : a ≠ "" := by
  intro he
  apply h
  rw [he]

theorem strAppend_ne_empty_left (a b : String) (h : a ≠ "") : a ++ b ≠ "" := by
  apply strNeEmpty_of_data_ne
  rw [strData_append]
  intro hd
  rcases List.append_eq_nil.mp hd with ⟨h1, _⟩
  apply h
  cases a
  simp only at h1
  rw [h1]

theorem strAppend_assoc (a b c : String) : a ++ b ++ c = a ++ (b ++ c) := by
  cases a
  cases b
  cases c
  show String.mk _ = String.mk _
  simp [String.append, List.append_assoc]

theorem strLength_eq_zero_iff (s : String) : s.length = 0 ↔ s = "" := by
  cases s with
  | mk l =>
    show l.length = 0 ↔ _
    rw [List.length_eq_zero]
    constructor
    · intro h
      rw [h]
    · intro h
      have : String.mk l = String.mk [] := h
      cases this
      rfl

theorem splitChar_ne_nil (c : Char) (l : List Char) : splitChar c l ≠ [] := by
  cases l with
  | nil => simp [splitChar]
  | cons a rest =>
    simp only [splitChar]
    rcases h : splitChar c rest with _ | ⟨h0, t⟩
    · simp
    · by_cases hac : a == c <;> simp [hac]

theorem joinChar_splitChar (c : Char) (l : List Char) :
    joinChar c (splitChar c l) = l := by
  induction l with
  | nil => rfl
  | cons a rest ih =>
    simp only [splitChar]
    rcases h : splitChar c rest with _ | ⟨h0, t⟩
    · exact absurd h (splitChar_ne_nil c rest)
    · rw [h] at ih
      by_cases hac : a == c
      · simp only [hac, if_pos]
        simp only [joinChar] at ih ⊢
        rw [ih]
        have : a = c := by simpa using hac
        rw [this]
        cases t <;> rfl
      · simp only [hac]
        simp only [Bool.false_eq_true, if_false]
        cases t with
        | nil =>
          simp only [joinChar] at ih ⊢
          rw [ih]
        | cons y t2 =>
          simp only [joinChar] at ih ⊢
          rw [← ih]
          simp

theorem pyJoin_pySplit (c : Char) (s : String) :
    pyJoinChar c (pySplitChar c s) = s := by
  cases s with
  | mk l =>
    show String.mk _ = String.mk _
    congr 1
    rw [pySplitChar]
    show joinChar c (((splitChar c l).map fun x => (String.mk x)).map String.data) = l
    rw [List.map_map]
    have : (String.data ∘ fun x => String.mk x) = id := by
      funext x
      rfl
    rw [this, List.map_id]
    exact joinChar_splitChar c l

theorem map_self_of_fixed {α : Type} (l : List α) (f : α → α)
    (h : ∀ p ∈ l, f p = p) : l.map f = l := by
  induction l with
  | nil => rfl
  | cons a rest ih =>
    simp only [List.map_cons]
    rw [h a (by simp), ih (fun p hp => h p (by simp [hp]))]

theorem isHexLetter_not_digit (c : Char) (h : isHexLetter c = true) :
    c.isDigit = false := by
  simp only [isHexLetter, Bool.or_eq_true, beq_iff_eq] at h
  rcases h with (((((((((((h|h)|h)|h)|h)|h)|h)|h)|h)|h)|h)|h) <;> subst h <;> decide

theorem strData_ne_of_ne_empty (s : String) (h : s ≠ "") : s.data ≠ [] := by
  intro hd
  apply h
  cases s
  simp only at hd
  rw [hd]

theorem get_numeric_slug_none_eq (s : String) (h : ¬ s.length = 0) :
    get_numeric_slug s none = numericSlugCore s := by
  simp [get_numeric_slug, h]

/-- C7: for a nonempty string classified with no identity hints,
`get_numeric_slug` returns `(int<len>)` when every character is a decimal
digit, `(hex<len>)` when every character is hexadecimal and at least one is
a letter a-f/A-F, `(alnum<len>)` when the string is neither all-digit nor
all-hex but contains a digit, and the string itself when it contains no
digit and is not all-hex. -/
theorem get_numeric_slug_classification (s : String) (hne : s ≠ "") :
    (s.data.all Char.isDigit = true →
      get_numeric_slug s none = "(int" ++ toString s.length ++ ")") ∧
    (s.data.all (fun c => hexDigits.contains c) = true → s.data.any isHexLetter = true →
      get_numeric_slug s none = "(hex" ++ toString s.length ++ ")") ∧
    (s.data.all Char.isDigit = false → s.data.all (fun c => hexDigits.contains c) = false →
      s.data.any Char.isDigit = true →
      get_numeric_slug s none = "(alnum" ++ toString s.length ++ ")") ∧
    (s.data.any Char.isDigit = false → s.data.all (fun c => hexDigits.contains c) = false →
      get_numeric_slug s none = s) := by
  have hlen : ¬ s.length = 0 := fun h => hne ((strLength_eq_zero_iff s).mp h)
  have hdata : s.data ≠ [] := strData_ne_of_ne_empty s hne
  have hempty : s.data.isEmpty = false := by
    cases hd : s.data with
    | nil => exact absurd hd hdata
    | cons a t => rfl
  refine ⟨?_, ?_, ?_, ?_⟩
  · intro h1
    have hd : pyIsDigitStr s = true := by simp [pyIsDigitStr, hempty, h1]
    rw [get_numeric_slug_none_eq s hlen]
    simp only [numericSlugCore, hd]
    simp
  · intro hhex hlet
    have hdig : s.data.all Char.isDigit = false := by
      rcases List.any_eq_true.mp hlet with ⟨c, hc, hcl⟩
      rcases hall : s.data.all Char.isDigit with _ | _
      · rfl
      · have := List.all_eq_true.mp hall c hc
        rw [isHexLetter_not_digit c hcl] at this
        exact absurd this (by simp)
    have hnd : pyIsDigitStr s = false := by simp [pyIsDigitStr, hdig]
    rw [get_numeric_slug_none_eq s hlen]
    simp only [numericSlugCore, hnd, hhex]
    simp
  · intro h1 h2 h3
    have hnd : pyIsDigitStr s = false := by simp [pyIsDigitStr, h1]
    rw [get_numeric_slug_none_eq s hlen]
    simp only [numericSlugCore, hnd, h2, h3]
    simp
  · intro hany hhex
    have h1 : s.data.all Char.isDigit = false := by
      cases hd : s.data with
      | nil => exact absurd hd hdata
      | cons a t =>
        rcases hall : (a :: t).all Char.isDigit with _ | _
        · rfl
        · have ha := List.all_eq_true.mp hall a (by simp)
          have : s.data.any Char.isDigit = true :=
            List.any_eq_true.mpr ⟨a, by rw [hd]; simp, ha⟩
          rw [this] at hany
          exact absurd hany (by simp)
    have hnd : pyIsDigitStr s = false := by simp [pyIsDigitStr, h1]
    rw [get_numeric_slug_none_eq s hlen]
    simp only [numericSlugCore, hnd, hhex, hany]
    simp

theorem get_numeric_slug_classification_witness :
    ("z1" : String) ≠ "" ∧
    ((("z1" : String).data.all Char.isDigit = true →
      get_numeric_slug "z1" none = "(int" ++ toString ("z1" : String).length ++ ")") ∧
    (("z1" : String).data.all (fun c => hexDigits.contains c) = true →
        ("z1" : String).data.any isHexLetter = true →
      get_numeric_slug "z1" none = "(hex" ++ toString ("z1" : String).length ++ ")") ∧
    (("z1" : String).data.all Char.isDigit = false →
        ("z1" : String).data.all (fun c => hexDigits.contains c) = false →
        ("z1" : String).data.any Char.isDigit = true →
      get_numeric_slug "z1" none = "(alnum" ++ toString ("z1" : String).length ++ ")") ∧
    (("z1" : String).data.any Char.isDigit = false →
        ("z1" : String).data.all (fun c => hexDigits.contains c) = false →
      get_numeric_slug "z1" none = "z1")) :=
  ⟨by decide, get_numeric_slug_classification "z1" (by decide)⟩

/-- C8: the claim (spec section 7: per-record failures are contained; in
particular absent or digit-only usernames must not abort the run) is
violated by the code: with user-identity checking enabled,
`get_user_info_from_event` raises `AttributeError` when the event has no
`username` field (`event.get('username').strip()` on `None`), and raises
`TypeError` for a digit-only username (`len(username <= 5)` evaluates
`len(False)` in Python 2), and the mapper calls it with no enclosing
`try`, so the exception propagates and aborts the run. -/
theorem get_user_info_from_event_raises :
    get_user_info_from_event true none none none none none =
      .error "AttributeError: 'NoneType' object has no attribute 'strip'" ∧
    get_user_info_from_event true (some "12345") none none none none =
      .error "TypeError: object of type 'bool' has no len()" :=
  ⟨rfl, rfl⟩

/-- C1 counterexample: the course-id pattern (modelled from the spec as the
org/course/run triple after `/courses/`) absorbs `abc101/jump_to_id/loc123`
whole, so the canonicalized result is `/courses/(course_id)` - not the
five-segment signature `/(alnum6)/courses/(alnum6)/jump_to_id/(block-id)`
stated by the claim (which is impossible in any case: the first path
segment of the input is `courses`, so no output can place `(alnum6)`
before `courses`, and `(block-id)` can only appear at segment index 4 of a
five-piece split). -/
theorem canonicalize_jump_to_id_counterexample :
    canonicalize_event_type "/courses/abc101/jump_to_id/loc123" false false false false =
      some "/courses/(course_id)" ∧
    ¬ (canonicalize_event_type "/courses/abc101/jump_to_id/loc123" false false false false =
      some "/(alnum6)/courses/(alnum6)/jump_to_id/(block-id)") := by
  constructor
  · rfl
  · decide

/-- C1 amended: with all flags false,
`canonicalize_event_type("/courses/abc101/jump_to_id/loc123")` returns
`/courses/(course_id)`: the course-id stubbing step greedily matches
`abc101/jump_to_id/loc123` as an org/course/run course id, collapsing the
whole tail, so the `jump_to_id` handler never fires and the segment count
drops to 3 pieces. -/
theorem canonicalize_jump_to_id_amended :
    canonicalize_event_type "/courses/abc101/jump_to_id/loc123" false false false false =
      some "/courses/(course_id)" := rfl

/-- C5 counterexample: for
`/courses/demo/xqueue/1/abc123def456/score_update` the course-id stubbing
(modelled from the spec) absorbs `demo/xqueue/1`, so the `xqueue` handler
never fires; segment 5 is classified generically as `(hex12)`, not
collapsed with segment 4 into one location placeholder. -/
theorem canonicalize_xqueue_counterexample :
    canonicalize_event_type "/courses/demo/xqueue/1/abc123def456/score_update"
        false false false false =
      some "/courses/(course_id)/(hex12)/score_update" ∧
    ¬ (canonicalize_event_type "/courses/demo/xqueue/1/abc123def456/score_update"
        false false false false =
      some "/courses/demo/xqueue/(block-loc)/score_update") := by
  constructor
  · rfl
  · decide

/-- C5 amended: with exclusion disabled, the emitted signature for
`/courses/demo/xqueue/1/abc123def456/score_update` is
`/courses/(course_id)/(hex12)/score_update`: segments 2-4
(`demo/xqueue/1`) collapse into the `(course_id)` stub, segment 5 becomes
`(hex12)`, and the final segment `score_update` is preserved verbatim. -/
theorem canonicalize_xqueue_amended :
    canonicalize_event_type "/courses/demo/xqueue/1/abc123def456/score_update"
        false false false false =
      some "/courses/(course_id)/(hex12)/score_update" := rfl

/-- C2 counterexample: `canonicalize_key` is not idempotent on its output.
`canonicalize_key "7" = "(int1)"`, which does not match the input-id
pattern, yet a second application re-slugs the placeholder:
`canonicalize_key "(int1)" = "(alnum6)"`. -/
theorem canonicalize_key_idempotent_counterexample :
    inputIdMatch ((canonicalize_key "7").data) = none ∧
    canonicalize_key "7" = "(int1)" ∧
    canonicalize_key (canonicalize_key "7") = "(alnum6)" ∧
    ¬ (canonicalize_key (canonicalize_key "7") = canonicalize_key "7") := by
  refine ⟨by decide, by decide, by decide, by decide⟩

/-- C2 amended: a key `y` is a fixed point of `canonicalize_key` provided
it does not match the input-id pattern and every delimiter-separated part
is itself fixed by `get_numeric_slug`.  Outputs of `canonicalize_key` need
not satisfy the second condition (placeholders such as `(int1)` contain
digits and re-slug to `(alnum6)`), so idempotence on outputs fails in
general. -/
theorem canonicalize_key_fixed_point (y : String)
    (hmatch : inputIdMatch y.data = none)
    (hparts : ∀ p ∈ keyDelimParts y, get_numeric_slug p none = p) :
    canonicalize_key y = y := by
  unfold canonicalize_key
  rw [hmatch]
  simp only
  unfold keyDelimParts at hparts
  by_cases h1 : y.data.contains '_'
  · rw [if_pos h1]
    rw [map_self_of_fixed _ _ (fun p hp => hparts p (by rw [if_pos h1]; exact hp))]
    exact pyJoin_pySplit '_' y
  · rw [if_neg h1]
    by_cases h2 : y.data.contains '.'
    · rw [if_pos h2]
      rw [map_self_of_fixed _ _
        (fun p hp => hparts p (by rw [if_neg h1, if_pos h2]; exact hp))]
      exact pyJoin_pySplit '.' y
    · rw [if_neg h2]
      exact hparts y (by rw [if_neg h1, if_neg h2]; simp)

theorem canonicalize_key_fixed_point_witness :
    inputIdMatch ("foo_bar".data) = none ∧
    (∀ p ∈ keyDelimParts "foo_bar", get_numeric_slug p none = p) ∧
    canonicalize_key "foo_bar" = "foo_bar" :=
  ⟨by decide, by decide, canonicalize_key_fixed_point "foo_bar" (by decide) (by decide)⟩

/-- C3 counterexample: a leaf that exactly equals a hint value yields only
the `name` variant; the `elif` chain suppresses the `contains-name`
variant the claim asserts must also be emitted. -/
theorem leaf_hint_modes_counterexample :
    get_key_names (.pstr "bob") "p" [] (some [("username", "bob")]) = ["p(username)"] ∧
    ¬ ("p(contains-username)" ∈
      get_key_names (.pstr "bob") "p" [] (some [("username", "bob")])) := by
  refine ⟨by decide, by decide⟩

theorem get_key_names_pstr (s pfx : String) (stop : List String)
    (ui : Option UserInfo) :
    get_key_names (.pstr s) pfx stop ui = leafKeyNames s "unicode" pfx ui := rfl

theorem leafHintSome (p : String × String) (s : String)
    (h : p.2 = s ∨ p.2 = "\"" ++ s ++ "\"" ∨ containsSub p.2.data s.data = true) :
    ∃ t, (if p.2 == s then some p.1
      else if p.2 == "\"" ++ s ++ "\"" then some (p.1 ++ "-quoted")
      else if containsSub p.2.data s.data then some ("contains-" ++ p.1)
      else none) = some t := by
  by_cases h1 : p.2 = s
  · exact ⟨p.1, by simp [h1]⟩
  · by_cases h2 : p.2 = "\"" ++ s ++ "\""
    · exact ⟨p.1 ++ "-quoted", by rw [if_neg (by simp [h1]), if_pos (by simp [h2])]⟩
    · rcases h with h | h | h
      · exact absurd h h1
      · exact absurd h h2
      · exact ⟨"contains-" ++ p.1, by simp [h1, h2, h]⟩

/-- C3 amended: for every leaf and every identity-hint map, the three match
modes are tested per hint in the fixed order exact, quoted, containment,
and each hint emits at most one key-path variant - that of the first mode
that matches: an exactly-equal hint value yields only the `name` variant,
a quote-wrapping hint value yields only the `name-quoted` variant, and a
merely-contained hint value yields only the `contains-name` variant; a
hint matching under no mode contributes nothing in any surrounding map;
when every hint of a (nonempty) map matches, the emitted list is exactly
the in-order concatenation of each hint's single variant; and in general
the emitted list never has more entries than the map has hints (with one
fallback entry for a matchless leaf). -/
theorem leaf_hint_first_mode_only :
    (∀ (pfx n v s : String) (stop : List String), v = s →
      get_key_names (.pstr s) pfx stop (some [(n, v)]) = [pfx ++ "(" ++ n ++ ")"]) ∧
    (∀ (pfx n v s : String) (stop : List String), v ≠ s → v = "\"" ++ s ++ "\"" →
      get_key_names (.pstr s) pfx stop (some [(n, v)]) =
        [pfx ++ "(" ++ n ++ "-quoted)"]) ∧
    (∀ (pfx n v s : String) (stop : List String),
      v ≠ s → v ≠ "\"" ++ s ++ "\"" → containsSub v.data s.data = true →
      get_key_names (.pstr s) pfx stop (some [(n, v)]) =
        [pfx ++ "(contains-" ++ n ++ ")"]) ∧
    (∀ (pfx s : String) (stop : List String) (ui1 ui2 : UserInfo) (n v : String),
      v ≠ s → v ≠ "\"" ++ s ++ "\"" → containsSub v.data s.data = false →
      get_key_names (.pstr s) pfx stop (some (ui1 ++ (n, v) :: ui2)) =
        get_key_names (.pstr s) pfx stop (some (ui1 ++ ui2))) ∧
    (∀ (pfx s : String) (stop : List String) (ui : UserInfo), ui ≠ [] →
      (∀ p ∈ ui, p.2 = s ∨ p.2 = "\"" ++ s ++ "\"" ∨ containsSub p.2.data s.data = true) →
      get_key_names (.pstr s) pfx stop (some ui) =
        ui.flatMap (fun p => get_key_names (.pstr s) pfx stop (some [p]))) ∧
    (∀ (pfx s : String) (stop : List String) (ui : UserInfo),
      (get_key_names (.pstr s) pfx stop (some ui)).length ≤ max 1 ui.length) := by
  refine ⟨?_, ?_, ?_, ?_, ?_, ?_⟩
  · intro pfx n v s stop he
    subst he
    simp [get_key_names, leafKeyNames]
  · intro pfx n v s stop hne hq
    subst hq
    rw [strAppend_assoc] at hne
    have hlit : ("-quoted" ++ ")" : String) = "-quoted)" := by decide
    simp [get_key_names_pstr, leafKeyNames, hne, strAppend_assoc, hlit]
  · intro pfx n v s stop hne hnq hcont
    have hlit : ("(" ++ "contains-" : String) = "(contains-" := by decide
    rw [strAppend_assoc] at hnq
    simp [get_key_names, leafKeyNames, hne, hnq, hcont, strAppend_assoc]
    rw [← hlit, strAppend_assoc]
  · intro pfx s stop ui1 ui2 n v hne hnq hcont
    have hnone : (if ((n, v).2 == s) then some (n, v).1
        else if ((n, v).2 == "\"" ++ s ++ "\"") then some ((n, v).1 ++ "-quoted")
        else if containsSub (n, v).2.data s.data then some ("contains-" ++ (n, v).1)
        else none) = none := by
      simp [hne, hnq, hcont]
    simp only [get_key_names_pstr, leafKeyNames, List.filterMap_append,
      List.filterMap_cons, hnone]
  · intro pfx s stop ui hne hmatch
    induction ui with
    | nil => exact absurd rfl hne
    | cons p rest ih =>
      obtain ⟨tp, htp⟩ := leafHintSome p s (hmatch p (by simp))
      cases rest with
      | nil => simp
      | cons q rest2 =>
        obtain ⟨tq, htq⟩ := leafHintSome q s (hmatch q (by simp))
        have ihh := ih (by simp) (fun r hr => hmatch r (by simp [hr]))
        rw [List.flatMap_cons, ← ihh]
        simp only [get_key_names_pstr, leafKeyNames, List.filterMap_cons, htp, htq]
        simp
  · intro pfx s stop ui
    simp only [get_key_names_pstr, leafKeyNames]
    rw [List.length_map]
    split
    · exact le_max_left 1 ui.length
    · exact le_trans (List.length_filterMap_le _ _) (le_max_right 1 ui.length)

theorem leaf_hint_first_mode_only_witness :
    get_key_names (.pstr "bob") "q" [] (some [("username", "bob")]) = ["q(username)"] ∧
    get_key_names (.pstr "bob") "q" [] (some [("username", "bob"), ("uid", "ob")]) =
      ([("username", "bob"), ("uid", "ob")] : UserInfo).flatMap
        (fun p => get_key_names (.pstr "bob") "q" [] (some [p])) :=
  ⟨leaf_hint_first_mode_only.1 "q" "username" "bob" "bob" [] rfl,
   leaf_hint_first_mode_only.2.2.2.2.1 "q" "bob" [] [("username", "bob"), ("uid", "ob")]
     (by decide) (by decide)⟩

/-! ### Route-dispatch lemmas -/

theorem wikiRoute_isSome (values : List String) (ds : Bool) :
    (wikiRoute values false ds).isSome = true := by
  unfold wikiRoute
  cases h : findCommandIndex values 4 (wikiLast values + 1 - 4) <;> simp

theorem pdfbookCheck_none_or_self (values : List String) :
    pdfbookCheck values = none ∨ pdfbookCheck values = some values := by
  unfold pdfbookCheck
  split_ifs <;> simp

theorem dispatchRoute_isSome_of_not_excluded (values : List String) (ds : Bool) :
    (dispatchRoute values false ds).isSome = true := by
  unfold dispatchRoute
  by_cases h1 : values.getD 1 "" = "courses"
  · rw [if_pos h1]
    by_cases h2 : 3 < values.length ∧ values.getD 2 "" = "(course_id)"
    · rw [if_pos h2]
      split <;> first
        | rfl
        | exact wikiRoute_isSome values ds
    · rw [if_neg h2]
      rfl
  · rw [if_neg h1]
    rfl

theorem wikiRoute_none_iff (values : List String) (ee ds ds' : Bool) :
    (wikiRoute values ee ds = none ↔ wikiRoute values ee ds' = none) := by
  unfold wikiRoute
  cases h : findCommandIndex values 4 (wikiLast values + 1 - 4)
  · simp
  · by_cases hee : ee = true <;> simp [hee]

theorem dispatchRoute_none_iff_ds (values : List String) (ee ds ds' : Bool) :
    (dispatchRoute values ee ds = none ↔ dispatchRoute values ee ds' = none) := by
  unfold dispatchRoute
  by_cases h1 : values.getD 1 "" = "courses"
  · rw [if_pos h1, if_pos h1]
    by_cases h2 : 3 < values.length ∧ values.getD 2 "" = "(course_id)"
    · rw [if_pos h2, if_pos h2]
      split <;> first
        | exact Iff.rfl
        | exact wikiRoute_none_iff values ee ds ds'
        | simp
    · rw [if_neg h2, if_neg h2]
  · rw [if_neg h1, if_neg h1]

theorem xblockRewrite_true (values : List String) : xblockRewrite values true = values := by
  simp [xblockRewrite]

theorem submissionHistoryRewrite_true (values : List String) :
    submissionHistoryRewrite values true = values := by
  simp [submissionHistoryRewrite]

theorem jumpToIdRewrite_true (values : List String) : jumpToIdRewrite values true = values := by
  simp [jumpToIdRewrite]

theorem jumpToRewrite_true (values : List String) : jumpToRewrite values true = values := by
  simp [jumpToRewrite]

theorem coursewareRewrite_true (values : List String) :
    coursewareRewrite values true = values := by
  simp [coursewareRewrite]

theorem xqueueRewrite_true (values : List String) : xqueueRewrite values true = values := by
  simp [xqueueRewrite]

theorem wikiRoute_true_plain (values : List String) (ee : Bool) :
    wikiRoute values ee true = none ∨ wikiRoute values ee true = some values := by
  unfold wikiRoute
  cases h : findCommandIndex values 4 (wikiLast values + 1 - 4)
  · simp
  · by_cases hee : ee = true <;> simp [hee]

theorem dispatchRoute_true_plain (values : List String) (ee : Bool)
    (hdisc : values.getD 3 "" ≠ "discussion") :
    dispatchRoute values ee true = none ∨ dispatchRoute values ee true = some values := by
  unfold dispatchRoute
  by_cases h1 : values.getD 1 "" = "courses"
  · rw [if_pos h1]
    by_cases h2 : 3 < values.length ∧ values.getD 2 "" = "(course_id)"
    · rw [if_pos h2]
      split
      · by_cases hee : ee = true
        · left
          rw [if_pos hee]
        · right
          rw [if_neg hee, xblockRewrite_true]
      · right
        rw [submissionHistoryRewrite_true]
      · right
        rw [jumpToIdRewrite_true]
      · by_cases hee : ee = true
        · left
          rw [if_pos hee]
        · right
          rw [if_neg hee, jumpToRewrite_true]
      · right
        rw [coursewareRewrite_true]
      · by_cases hee : ee = true
        · left
          rw [if_pos hee]
        · right
          rw [if_neg hee, xqueueRewrite_true]
      · exact wikiRoute_true_plain values ee
      · exact absurd (by assumption) hdisc
      · by_cases hee : ee = true
        · rw [if_pos hee]
          exact pdfbookCheck_none_or_self values
        · right
          rw [if_neg hee]
      · by_cases hee : ee = true
        · rw [if_pos hee]
          split_ifs <;> simp
        · right
          rw [if_neg hee]
    · rw [if_neg h2]
      by_cases hee : ee = true
      · left
        rw [if_pos hee]
      · right
        rw [if_neg hee]
  · rw [if_neg h1]
    by_cases hee : ee = true
    · left
      rw [if_pos hee]
    · right
      rw [if_neg hee]

/-- C9: with `exclude_implicit`, `exclude_explicit` and `exclude_excluded`
all false, `canonicalize_event_type` never returns `None`: every event
type receives a signature, for every event-type string, every
`disable_slugging` setting, every identity-hint map, and every course-id
stubbing function. -/
theorem canonicalize_no_exclusion_kept :
    ∀ (stub : String → String) (event_type : String) (ds : Bool) (ui : Option UserInfo),
      (canonicalizeEventTypeWith stub event_type false false false ds ui).isSome = true := by
  intro stub e ds ui
  unfold canonicalizeEventTypeWith
  by_cases h1 : ¬ ("/".data.isPrefixOf e.data) = true
  · rw [if_pos h1]
    rfl
  · rw [if_neg h1]
    dsimp only
    cases h : dispatchRoute (pySplitChar '/' (stub e)) false ds
    · have hs := dispatchRoute_isSome_of_not_excluded (pySplitChar '/' (stub e)) ds
      rw [h] at hs
      simp at hs
    · simp

/-- C4 counterexample: the `discussion` route handler ignores
`disable_slugging`: with `disable_slugging=True` the discussion-id segment
is still substituted, so the substitution is not suppressed for every
route handler as the claim asserts. -/
theorem disable_slugging_discussion_counterexample :
    canonicalize_event_type "/courses/a/b/c/discussion/top/threads" false false false true =
      some "/courses/(course_id)/discussion/(discussion-id)/threads" ∧
    ¬ (canonicalize_event_type "/courses/a/b/c/discussion/top/threads" false false false true =
      some "/courses/(course_id)/discussion/top/threads") := ⟨rfl, by decide⟩

/-- C4 amended: `disable_slugging=True` returns `EXCLUDED` (`None`) for
exactly the same inputs as `disable_slugging=False` (for every stubbing
function, event type and flag setting), and it suppresses the
route-specific placeholder substitution in every route handler except
`discussion`: when the fourth segment of the stubbed split is not
`discussion`, the result under `disable_slugging=True` is either `None` or
the plain segment-wise slugging of the stubbed split, with no route
rewrite applied.  (The `discussion` handler substitutes
`(discussion-id)`/`(forum-id)` regardless of the flag.) -/
theorem disable_slugging_behavior :
    (∀ (stub : String → String) (event_type : String) (ei ex ee : Bool)
        (ui : Option UserInfo),
      (canonicalizeEventTypeWith stub event_type ei ex ee true ui = none ↔
        canonicalizeEventTypeWith stub event_type ei ex ee false ui = none)) ∧
    (∀ (stub : String → String) (event_type : String) (ei ex ee : Bool)
        (ui : Option UserInfo),
      "/".data.isPrefixOf event_type.data = true →
      (pySplitChar '/' (stub event_type)).getD 3 "" ≠ "discussion" →
      canonicalizeEventTypeWith stub event_type ei ex ee true ui = none ∨
      canonicalizeEventTypeWith stub event_type ei ex ee true ui =
        some (pyJoinChar '/'
          ((pySplitChar '/' (stub event_type)).map (fun v => get_numeric_slug v ui)))) := by
  constructor
  · intro stub e ei ex ee ui
    unfold canonicalizeEventTypeWith
    by_cases h1 : ¬ ("/".data.isPrefixOf e.data) = true
    · rw [if_pos h1, if_pos h1]
    · rw [if_neg h1, if_neg h1]
      by_cases hex : ex = true
      · rw [if_pos hex, if_pos hex]
      · rw [if_neg hex, if_neg hex]
        dsimp only
        have hiff := dispatchRoute_none_iff_ds (pySplitChar '/' (stub e)) ee true false
        cases h : dispatchRoute (pySplitChar '/' (stub e)) ee true with
        | none =>
          rw [h] at hiff
          have h2 : dispatchRoute (pySplitChar '/' (stub e)) ee false = none := hiff.mp rfl
          rw [h2]
        | some vs =>
          cases h2 : dispatchRoute (pySplitChar '/' (stub e)) ee false with
          | none =>
            rw [h, h2] at hiff
            exact absurd (hiff.mpr rfl) (by simp)
          | some vs2 => simp
  · intro stub e ei ex ee ui hpre hdisc
    unfold canonicalizeEventTypeWith
    rw [if_neg (by simp [hpre])]
    by_cases hex : ex = true
    · rw [if_pos hex]
      left
      rfl
    · rw [if_neg hex]
      dsimp only
      rcases dispatchRoute_true_plain (pySplitChar '/' (stub e)) ee hdisc with h | h
      · rw [h]
        left
        rfl
      · rw [h]
        right
        rfl

theorem disable_slugging_behavior_witness :
    ((canonicalizeEventTypeWith stubCourseId "/courses/a/b/c/wiki/w7/_edit"
        false false true true none = none ↔
      canonicalizeEventTypeWith stubCourseId "/courses/a/b/c/wiki/w7/_edit"
        false false true false none = none) ∧
     (canonicalizeEventTypeWith stubCourseId "/courses/a/b/c/jump_to_id/x9"
        false false false true none = none ∨
      canonicalizeEventTypeWith stubCourseId "/courses/a/b/c/jump_to_id/x9"
        false false false true none =
        some (pyJoinChar '/'
          ((pySplitChar '/' (stubCourseId "/courses/a/b/c/jump_to_id/x9")).map
            (fun v => get_numeric_slug v none))))) :=
  ⟨disable_slugging_behavior.1 stubCourseId "/courses/a/b/c/wiki/w7/_edit" false false true none,
   disable_slugging_behavior.2 stubCourseId "/courses/a/b/c/jump_to_id/x9" false false false none
     (by decide) (by decide)⟩

/-- C6: when `exclude_excluded` (exclude-known-noise) is set, a
course-scoped path whose route tag (fourth segment) lies in the noise
allow-list `info/progress/course_wiki/about/teams` is excluded if and only
if it carries extra trailing segments; and in particular the full pipeline
excludes `/courses/c1/info/extra` under
`(exclude_implicit, exclude_explicit, exclude_excluded, disable_slugging)
= (False, False, True, False)`. -/
theorem noise_route_exclusion :
    (∀ tag ∈ noiseRoutes, ∀ (extras : List String) (ds : Bool),
      (dispatchRoute ("" :: "courses" :: "(course_id)" :: tag :: extras) true ds = none ↔
        extras ≠ [])) ∧
    canonicalize_event_type "/courses/c1/info/extra" false false true false = none := by
  constructor
  · intro tag htag extras ds
    unfold dispatchRoute
    rw [if_pos
      (show ("" :: "courses" :: "(course_id)" :: tag :: extras).getD 1 "" = "courses" from rfl)]
    rw [if_pos (show 3 < ("" :: "courses" :: "(course_id)" :: tag :: extras).length ∧
        ("" :: "courses" :: "(course_id)" :: tag :: extras).getD 2 "" = "(course_id)" from
      ⟨by show 3 < extras.length + 1 + 1 + 1 + 1; omega, rfl⟩)]
    rw [show ("" :: "courses" :: "(course_id)" :: tag :: extras).getD 3 "" = tag from rfl]
    split <;> simp_all [noiseRoutes]
  · rfl

theorem noise_route_exclusion_witness :
    (dispatchRoute ("" :: "courses" :: "(course_id)" :: "info" :: ["extra"]) true false =
        none ↔
      (["extra"] : List String) ≠ []) :=
  noise_route_exclusion.1 "info" (by decide) ["extra"] false

theorem leafKeyNames_extends (ostr tname pfx : String) (ui : Option UserInfo) :
    ∀ s ∈ leafKeyNames ostr tname pfx ui, ∃ t, t ≠ "" ∧ s = pfx ++ t := by
  intro s hs
  unfold leafKeyNames at hs
  rcases List.mem_map.mp hs with ⟨et, _, hmk⟩
  refine ⟨"(" ++ et ++ ")",
    strAppend_ne_empty_left _ _ (strAppend_ne_empty_left _ _ (by decide)), ?_⟩
  rw [← hmk]
  simp only [strAppend_assoc]

mutual
theorem get_key_names_extends (obj : PyValue) (pfx : String) (stop : List String)
    (ui : Option UserInfo) :
    ∀ s ∈ get_key_names obj pfx stop ui, ∃ t, t ≠ "" ∧ s = pfx ++ t := by
  cases obj with
  | pnone =>
    intro s hs
    simp [get_key_names] at hs
  | pdict entries =>
    intro s hs
    simp only [get_key_names] at hs
    rcases List.mem_append.mp hs with h | h
    · cases entries with
      | fnil =>
        simp at h
        exact ⟨"(emptydict)", by decide, by rw [h]⟩
      | fcons k v rest => simp at h
    · exact walkFields_extends entries pfx (stop.map pyLower) ui s h
  | plist items =>
    cases items with
    | lnil =>
      intro s hs
      simp only [get_key_names, List.mem_singleton] at hs
      exact ⟨"[]", by decide, by rw [hs]⟩
    | lcons e rest =>
      intro s hs
      simp only [get_key_names] at hs
      rcases get_key_names_extends e (pfx ++ "[]") stop ui s hs with ⟨t, ht, hst⟩
      exact ⟨"[]" ++ t, strAppend_ne_empty_left _ _ (by decide),
        by rw [hst, strAppend_assoc]⟩
  | pstr v =>
    intro s hs
    exact leafKeyNames_extends _ _ pfx ui s hs
  | pint n =>
    intro s hs
    exact leafKeyNames_extends _ _ pfx ui s hs
  | pbool b =>
    intro s hs
    exact leafKeyNames_extends _ _ pfx ui s hs

theorem walkFields_extends (entries : PyFields) (pfx : String) (stop : List String)
    (ui : Option UserInfo) :
    ∀ s ∈ walkFields entries pfx stop ui, ∃ t, t ≠ "" ∧ s = pfx ++ t := by
  cases entries with
  | fnil =>
    intro s hs
    simp [walkFields] at hs
  | fcons k v rest =>
    intro s hs
    simp only [walkFields] at hs
    rcases List.mem_append.mp hs with h | h
    · by_cases htrim : (pyLower k) ∈ stop
      · rw [if_pos htrim] at h
        simp only [List.mem_singleton] at h
        refine ⟨"." ++ (if pfx ∈ urlOverridePrefixes then "(url)" else canonicalize_key k) ++
          "(TRIMMED)", strAppend_ne_empty_left _ _ (strAppend_ne_empty_left _ _ (by decide)), ?_⟩
        rw [h]
        simp only [strAppend_assoc]
      · rw [if_neg htrim] at h
        rcases get_key_names_extends v
          (pfx ++ "." ++ (if pfx ∈ urlOverridePrefixes then "(url)" else canonicalize_key k))
          stop ui s h with ⟨t, ht, hst⟩
        refine ⟨"." ++ (if pfx ∈ urlOverridePrefixes then "(url)" else canonicalize_key k) ++ t,
          strAppend_ne_empty_left _ _ (strAppend_ne_empty_left _ _ (by decide)), ?_⟩
        rw [hst]
        simp only [strAppend_assoc]
    · exact walkFields_extends rest pfx stop ui s h
end

/-- C10: every key path emitted by `get_key_names` strictly extends the
supplied prefix (it equals the prefix followed by a nonempty suffix), and
`get_key_names` applied to `None` returns the empty list, for every
prefix, stopword list and identity-hint map. -/
theorem get_key_names_prefix_invariant :
    (∀ (pfx : String) (stop : List String) (ui : Option UserInfo),
      get_key_names .pnone pfx stop ui = []) ∧
    (∀ (obj : PyValue) (pfx : String) (stop : List String) (ui : Option UserInfo)
        (s : String), s ∈ get_key_names obj pfx stop ui →
      ∃ t, t ≠ "" ∧ s = pfx ++ t) := by
  constructor
  · intro pfx stop ui
    rfl
  · intro obj pfx stop ui s hs
    exact get_key_names_extends obj pfx stop ui s hs

theorem get_key_names_prefix_invariant_witness :
    "p(unicode)" ∈ get_key_names (.pstr "x") "p" [] none ∧
    ∃ t, t ≠ "" ∧ "p(unicode)" = "p" ++ t :=
  ⟨by decide,
   get_key_names_prefix_invariant.2 (.pstr "x") "p" [] none "p(unicode)" (by decide)⟩
